import Mathlib

/-!
Shallow embedding of the log-analysis tool (src/analyze_logs.py and
src/generate_report.py) and proofs of the frozen claims about it.

Modelling conventions:
* A log line is a `List Char`; a file's content is a `List (List Char)`
  (the result of Python's `readlines`).
* Python's `'needle' in line` substring test is the Boolean `hasSub`.
* Python's `line.strip()` is `pyStrip` (ASCII whitespace; the needles the
  claims are about are all ASCII, so the Unicode extension is irrelevant).
* `datetime` values are `Timestamp`: microseconds on the proleptic
  Gregorian time line (Python's `toordinal` convention) plus an `aware`
  flag recording whether the value carries a timezone (`fromisoformat`
  with `+00:00` yields aware values, `strptime` yields naive ones).
* Fallible Python code is embedded with `Except`: an uncaught exception
  is `Except.error`.
* `float` durations are embedded as `ℚ`; `timedelta.total_seconds()` of
  an exact microsecond difference is the exact rational `micros / 10^6`.
-/

/-- `\d` of the regexes (ASCII decimal digit). -/
def pyDigit (c : Char) : Bool := '0' ≤ c && c ≤ '9'

/-- The whitespace stripped by Python's `str.strip()` (ASCII part:
space, tab, newline, carriage return, vertical tab, form feed). -/
def isPySpace (c : Char) : Bool :=
  c == ' ' || c == '\t' || c == '\n' || c == '\r' || c == Char.ofNat 11 || c == Char.ofNat 12

/-- ASCII lowering, modelling `str.lower()` on the characters that occur
in the known-issue needles. -/
def pyLower (c : Char) : Char :=
  if 'A' ≤ c && c ≤ 'Z' then Char.ofNat (c.toNat + 32) else c

/-- `isPfx n h` holds when `n` is a leading segment of `h`. -/
def isPfx : List Char → List Char → Bool
  | [], _ => true
  | _ :: _, [] => false
  | a :: as, b :: bs => a == b && isPfx as bs

/-- `hasSub n h` is Python's substring test `n in h`. -/
def hasSub (n : List Char) : List Char → Bool
  | [] => isPfx n []
  | c :: cs => isPfx n (c :: cs) || hasSub n cs

/-- Python's `str.strip()`: drop whitespace from the front, then from the
back (the back strip is a front strip of the reversal). -/
def pyStrip (l : List Char) : List Char :=
  ((l.dropWhile isPySpace).reverse.dropWhile isPySpace).reverse

/-- An embedded `datetime`: microseconds on the proleptic Gregorian time
line (day numbering as in Python's `date.toordinal`), plus whether the
value is timezone-aware.  The tool only ever builds aware values with a
`+00:00` offset, so subtraction of two aware values is the plain
difference of `micros`, exactly as for two naive values; subtracting an
aware value from a naive one (or vice versa) raises `TypeError` in
Python. -/
structure Timestamp where
  micros : Nat
  aware : Bool
deriving DecidableEq

/-- Decimal value of a digit string. -/
def digitsToNat (ds : List Char) : Nat :=
  ds.foldl (fun a c => a * 10 + (c.toNat - 48)) 0

/-- Microseconds denoted by the fraction digits after the decimal point:
the first six digits, right-padded with zeros (`.5` is 500000 µs). -/
def fracMicros (ds : List Char) : Nat :=
  digitsToNat (ds.take 6 ++ List.replicate (6 - ds.length) '0')

def isLeap (y : Nat) : Bool := y % 4 == 0 && (y % 100 != 0 || y % 400 == 0)

def daysInMonth (y m : Nat) : Nat :=
  if m == 2 then (if isLeap y then 29 else 28)
  else if m == 4 || m == 6 || m == 9 || m == 11 then 30
  else 31

def daysBeforeMonth (y m : Nat) : Nat :=
  (List.range (m - 1)).foldl (fun a i => a + daysInMonth y (i + 1)) 0

/-- Python's `date.toordinal` (Jan 1 of year 1 is day 1). -/
def dateOrdinal (y m d : Nat) : Nat :=
  365 * (y - 1) + (y - 1) / 4 - (y - 1) / 100 + (y - 1) / 400 + daysBeforeMonth y m + d

/-- Field validation shared by `datetime.fromisoformat` and the
`datetime` constructor reached through `strptime` (a violation raises
`ValueError`). -/
def validYMD (y m d : Nat) : Bool :=
  1 ≤ y && 1 ≤ m && m ≤ 12 && 1 ≤ d && d ≤ daysInMonth y m

def validHMS (h mi s : Nat) : Bool := h ≤ 23 && mi ≤ 59 && s ≤ 59

def mkTimestamp (ord h mi s frac : Nat) (aware : Bool) : Timestamp :=
  ⟨(ord * 86400 + h * 3600 + mi * 60 + s) * 1000000 + frac, aware⟩

/-- Take exactly `k` digits off the front. -/
def takeDigitsN : Nat → List Char → Option (List Char × List Char)
  | 0, rest => some ([], rest)
  | _ + 1, [] => none
  | k + 1, c :: cs =>
    if pyDigit c then (takeDigitsN k cs).map (fun p => (c :: p.1, p.2)) else none

/-- Take the maximal (greedy `\d+`) run of digits off the front. -/
def takeDigitsMax : List Char → List Char × List Char
  | [] => ([], [])
  | c :: cs =>
    if pyDigit c then
      let p := takeDigitsMax cs
      (c :: p.1, p.2)
    else ([], c :: cs)

def expectCh (c : Char) : List Char → Option (List Char)
  | [] => none
  | x :: xs => if x == c then some xs else none

/-- The regex `(\d{4}-\d{2}-\d{2}T\d{2}:\d{2}:\d{2}\.\d+Z)` anchored at the
start of `l`; returns the matched substring (`match.group(1)`).  The
greedy `\d+` run followed by the literal `Z` needs no backtracking, since
`Z` is not a digit. -/
def matchISO (l : List Char) : Option (List Char) := do
  let (yds, r) ← takeDigitsN 4 l
  let r ← expectCh '-' r
  let (mds, r) ← takeDigitsN 2 r
  let r ← expectCh '-' r
  let (dds, r) ← takeDigitsN 2 r
  let r ← expectCh 'T' r
  let (hds, r) ← takeDigitsN 2 r
  let r ← expectCh ':' r
  let (mids, r) ← takeDigitsN 2 r
  let r ← expectCh ':' r
  let (sds, r) ← takeDigitsN 2 r
  let r ← expectCh '.' r
  let (fds, r) := takeDigitsMax r
  let _ ← expectCh 'Z' r
  if fds.isEmpty then none
  else
    some (yds ++ '-' :: mds ++ '-' :: dds ++ 'T' :: hds ++ ':' :: mids
          ++ ':' :: sds ++ '.' :: fds ++ ['Z'])

/-- The regex `(\d{4}-\d{2}-\d{2} \d{2}:\d{2}:\d{2}\.\d+)` anchored at the
start of `l`. -/
def matchStd (l : List Char) : Option (List Char) := do
  let (yds, r) ← takeDigitsN 4 l
  let r ← expectCh '-' r
  let (mds, r) ← takeDigitsN 2 r
  let r ← expectCh '-' r
  let (dds, r) ← takeDigitsN 2 r
  let r ← expectCh ' ' r
  let (hds, r) ← takeDigitsN 2 r
  let r ← expectCh ':' r
  let (mids, r) ← takeDigitsN 2 r
  let r ← expectCh ':' r
  let (sds, r) ← takeDigitsN 2 r
  let r ← expectCh '.' r
  let (fds, _) := takeDigitsMax r
  if fds.isEmpty then none
  else
    some (yds ++ '-' :: mds ++ '-' :: dds ++ ' ' :: hds ++ ':' :: mids
          ++ ':' :: sds ++ '.' :: fds)

/-- The regex `(\d{2}:\d{2}:\d{2}\.\d+)` anchored at the start of `l`. -/
def matchTimeOnly (l : List Char) : Option (List Char) := do
  let (hds, r) ← takeDigitsN 2 l
  let r ← expectCh ':' r
  let (mids, r) ← takeDigitsN 2 r
  let r ← expectCh ':' r
  let (sds, r) ← takeDigitsN 2 r
  let r ← expectCh '.' r
  let (fds, _) := takeDigitsMax r
  if fds.isEmpty then none
  else some (hds ++ ':' :: mids ++ ':' :: sds ++ '.' :: fds)

/-- `re.search`: try the anchored matcher at every position, leftmost
match wins. -/
def searchPat (m : List Char → Option (List Char)) : List Char → Option (List Char)
  | [] => m []
  | c :: cs =>
    match m (c :: cs) with
    | some r => some r
    | none => searchPat m cs

/-- `datetime.fromisoformat(s.replace('Z', '+00:00'))` on a string of the
shape produced by `matchISO` (CPython at least 3.11: any number of fraction
digits, truncated to microseconds); yields an aware value.  Range
violations (e.g. month 13) raise `ValueError`, which the source catches. -/
def parseISOStr (s : List Char) : Option Timestamp := do
  let (yds, r) ← takeDigitsN 4 s
  let r ← expectCh '-' r
  let (mds, r) ← takeDigitsN 2 r
  let r ← expectCh '-' r
  let (dds, r) ← takeDigitsN 2 r
  let r ← expectCh 'T' r
  let (hds, r) ← takeDigitsN 2 r
  let r ← expectCh ':' r
  let (mids, r) ← takeDigitsN 2 r
  let r ← expectCh ':' r
  let (sds, r) ← takeDigitsN 2 r
  let r ← expectCh '.' r
  let (fds, r) := takeDigitsMax r
  let r ← expectCh 'Z' r
  if fds.isEmpty || !r.isEmpty then none
  else
    let y := digitsToNat yds
    let mo := digitsToNat mds
    let d := digitsToNat dds
    let h := digitsToNat hds
    let mi := digitsToNat mids
    let sec := digitsToNat sds
    if validYMD y mo d && validHMS h mi sec then
      some (mkTimestamp (dateOrdinal y mo d) h mi sec (fracMicros fds) true)
    else none

/-- `datetime.strptime(s, '%Y-%m-%d %H:%M:%S.%f')`; naive result.  `%f`
accepts one to six fraction digits. -/
def parseStdStr (s : List Char) : Option Timestamp := do
  let (yds, r) ← takeDigitsN 4 s
  let r ← expectCh '-' r
  let (mds, r) ← takeDigitsN 2 r
  let r ← expectCh '-' r
  let (dds, r) ← takeDigitsN 2 r
  let r ← expectCh ' ' r
  let (hds, r) ← takeDigitsN 2 r
  let r ← expectCh ':' r
  let (mids, r) ← takeDigitsN 2 r
  let r ← expectCh ':' r
  let (sds, r) ← takeDigitsN 2 r
  let r ← expectCh '.' r
  let (fds, r) := takeDigitsMax r
  if fds.isEmpty || decide (6 < fds.length) || !r.isEmpty then none
  else
    let y := digitsToNat yds
    let mo := digitsToNat mds
    let d := digitsToNat dds
    let h := digitsToNat hds
    let mi := digitsToNat mids
    let sec := digitsToNat sds
    if validYMD y mo d && validHMS h mi sec then
      some (mkTimestamp (dateOrdinal y mo d) h mi sec (fracMicros fds) false)
    else none

/-- `datetime.strptime(s, '%H:%M:%S.%f')` combined with
`datetime.now().date()`: the current processing date enters as the
`today` ordinal; naive result. -/
def parseTimeStr (today : Nat) (s : List Char) : Option Timestamp := do
  let (hds, r) ← takeDigitsN 2 s
  let r ← expectCh ':' r
  let (mids, r) ← takeDigitsN 2 r
  let r ← expectCh ':' r
  let (sds, r) ← takeDigitsN 2 r
  let r ← expectCh '.' r
  let (fds, r) := takeDigitsMax r
  if fds.isEmpty || decide (6 < fds.length) || !r.isEmpty then none
  else
    let h := digitsToNat hds
    let mi := digitsToNat mids
    let sec := digitsToNat sds
    if validHMS h mi sec then
      some (mkTimestamp today h mi sec (fracMicros fds) false)
    else none

/-- The body of the `try:` block of `parse_timestamp`: dispatch on the
shape of the matched substring (`'T' in timestamp_str`, then
`' ' in timestamp_str`), returning `none` where the Python code raises
`ValueError`. -/
def parseMatched (today : Nat) (s : List Char) : Option Timestamp :=
  if s.contains 'T' then parseISOStr s
  else if s.contains ' ' then parseStdStr s
  else parseTimeStr today s

/-- The `for pattern in patterns:` loop of `parse_timestamp`: if the
pattern's regex does not match, move on; if it matches, try to parse the
matched substring, and on `ValueError` the `continue` also moves on to
the NEXT pattern. -/
def patLoop (today : Nat) (line : List Char) :
    List (List Char → Option (List Char)) → Option Timestamp
  | [] => none
  | m :: rest =>
    match searchPat m line with
    | none => patLoop today line rest
    | some s =>
      match parseMatched today s with
      | some t => some t
      | none => patLoop today line rest

/-- The ordered pattern list of `parse_timestamp`. -/
def tsPatterns : List (List Char → Option (List Char)) :=
  [matchISO, matchStd, matchTimeOnly]

/-- `parse_timestamp` (src/analyze_logs.py, lines 13-37). -/
def parse_timestamp (today : Nat) (line : List Char) : Option Timestamp :=
  patLoop today line tsPatterns

/-- The needles and labels of `analyze_log_file`. -/
def sERROR : List Char := "ERROR".data

def sWARN : List Char := "WARN".data

def sJOINED : List Char := "\"joined\"".data

def sDISCO : List Char := "disco box".data

def sDNS : List Char := "dns.iroh.link".data

def sPKARR : List Char := "pkarr publish error".data

def sFAILEDDISCO : List Char := "failed to open disco box".data

/-- The `results` dictionary of `analyze_log_file`. -/
structure LogAnalysis where
  file : String
  error_count : Nat
  warn_count : Nat
  first_timestamp : Option Timestamp
  last_timestamp : Option Timestamp
  duration_seconds : Option ℚ
  success : Bool
  notable_issues : List String
deriving DecidableEq

def initResults (path : String) : LogAnalysis :=
  { file := path, error_count := 0, warn_count := 0, first_timestamp := none,
    last_timestamp := none, duration_seconds := none, success := false,
    notable_issues := [] }

/-- One iteration of the `for line in lines:` loop of `analyze_log_file`:
strip the line, skip it when empty, otherwise update the counters, the
timestamps, the success flag and the notable issues. -/
def processLine (today : Nat) (st : LogAnalysis) (raw : List Char) : LogAnalysis :=
  let line := pyStrip raw
  if line = [] then st
  else
    let lower := line.map pyLower
    { st with
      error_count := if hasSub sERROR line then st.error_count + 1 else st.error_count,
      warn_count := if hasSub sWARN line then st.warn_count + 1 else st.warn_count,
      first_timestamp :=
        match parse_timestamp today line, st.first_timestamp with
        | some t, none => some t
        | _, f => f,
      last_timestamp :=
        match parse_timestamp today line with
        | some t => some t
        | none => st.last_timestamp,
      success := if hasSub sJOINED line then true else st.success,
      notable_issues := st.notable_issues
        ++ (if hasSub sDISCO lower then ["Disco box error"] else [])
        ++ (if hasSub sDNS lower then ["DNS resolution failure"] else [])
        ++ (if hasSub sPKARR lower then ["PKarr protocol error"] else [])
        ++ (if hasSub sFAILEDDISCO lower then ["Failed to open disco box"] else []) }

/-- `(last - first).total_seconds()`, exact in `ℚ`. -/
def secondsBetween (a b : Timestamp) : ℚ :=
  (((b.micros : ℤ) - (a.micros : ℤ) : ℤ) : ℚ) / 1000000

/-- The timestamp one loop iteration extracts from a raw line (`none`
for a line that is skipped as empty or whose stripped text does not
parse). -/
def lineTimestamp (today : Nat) (raw : List Char) : Option Timestamp :=
  let line := pyStrip raw
  if line = [] then none else parse_timestamp today line

/-- The whole `for line in lines:` loop. -/
def scanLines (today : Nat) (path : String) (lines : List (List Char)) : LogAnalysis :=
  lines.foldl (processLine today) (initResults path)

/-- `analyze_log_file` (src/analyze_logs.py, lines 39-102).  The file
read is passed in as `Except String (List (List Char))`: `Except.error e`
is an open/read failure with message `e` (caught and recorded as a
notable issue).  The final timestamp-to-`isoformat`-string conversion is
presence-preserving and is not modelled.  Subtracting a naive timestamp
from an aware one (or vice versa) raises an uncaught `TypeError`, hence
the `Except Unit` result. -/
def analyze_log_file (path : String) (today : Nat)
    (read : Except String (List (List Char))) : Except Unit LogAnalysis :=
  match read with
  | .error e => .ok { initResults path with notable_issues := ["Failed to read file: " ++ e] }
  | .ok lines =>
    let r := scanLines today path lines
    match r.first_timestamp, r.last_timestamp with
    | some f, some l =>
      if f.aware == l.aware then
        .ok { r with duration_seconds := some (secondsBetween f l) }
      else .error ()
    | _, _ => .ok r

/-- The timestamps the scan extracts, in file order: one entry per
non-empty line whose stripped text parses. -/
def parsedTimestamps (today : Nat) (lines : List (List Char)) : List Timestamp :=
  lines.filterMap (lineTimestamp today)

/-- One test-run directory's result (`analyze_test_run`): the directory
globbing itself is thin I/O and is not modelled; a run arrives as its two
optional log analyses. -/
structure TestRunAnalysis where
  cli_analysis : Option LogAnalysis
  peer_analysis : Option LogAnalysis
deriving DecidableEq

/-- The `summary` dictionary of `analyze_version_directory`. -/
structure VersionSummary where
  total_runs : Nat
  successful_runs : Nat
  avg_duration : Option ℚ
  median_duration : Option ℚ
  min_duration : Option ℚ
  max_duration : Option ℚ
  total_errors : Nat
  total_warnings : Nat
deriving DecidableEq

def initSummary : VersionSummary :=
  { total_runs := 0, successful_runs := 0, avg_duration := none, median_duration := none,
    min_duration := none, max_duration := none, total_errors := 0, total_warnings := 0 }

/-- One iteration of the run loop of `analyze_version_directory`,
carrying the summary accumulators and the `durations` list. -/
def versionStep (acc : VersionSummary × List ℚ) (run : TestRunAnalysis) :
    VersionSummary × List ℚ :=
  let s0 := acc.1
  let ds0 := acc.2
  let s1 := { s0 with total_runs := s0.total_runs + 1 }
  let acc1 :=
    match run.cli_analysis with
    | none => (s1, ds0)
    | some cli =>
      ({ s1 with
          successful_runs :=
            if cli.success then s1.successful_runs + 1 else s1.successful_runs,
          total_errors := s1.total_errors + cli.error_count,
          total_warnings := s1.total_warnings + cli.warn_count },
       match cli.duration_seconds with
       | some d => ds0 ++ [d]
       | none => ds0)
  match run.peer_analysis with
  | none => acc1
  | some peer =>
    ({ acc1.1 with
        total_errors := acc1.1.total_errors + peer.error_count,
        total_warnings := acc1.1.total_warnings + peer.warn_count },
     acc1.2)

/-- The `durations` list accumulated over the runs of a version
directory, in run order. -/
def durationsOf (runs : List TestRunAnalysis) : List ℚ :=
  (runs.foldl versionStep (initSummary, [])).2

/-- Python's `sorted` on the duration list: the unique ascending
reordering (`ℚ` is linearly ordered, so every correct sort of the same
list is extensionally this one). -/
def pySorted (l : List ℚ) : List ℚ := List.insertionSort (· ≤ ·) l

/-- `analyze_version_directory` (src/analyze_logs.py, lines 123-173),
restricted to its summary: run the loop, then compute the duration
statistics when `durations` is non-empty (`sorted[len//2]`,
`sorted[0]`, `sorted[-1]`). -/
def analyze_version_directory (runs : List TestRunAnalysis) : VersionSummary :=
  let acc := runs.foldl versionStep (initSummary, [])
  let s := acc.1
  let durations := acc.2
  if durations = [] then s
  else
    let sorted_durations := pySorted durations
    { s with
      avg_duration := some (durations.sum / (durations.length : ℚ)),
      median_duration := sorted_durations[durations.length / 2]?,
      min_duration := sorted_durations[0]?,
      max_duration := sorted_durations.getLast? }

/-- Python truthiness of an optional float (`None` and `0.0` are falsy):
what `if baseline['avg_duration'] and test_summary['avg_duration']:`
actually tests. -/
def pyTruthy (x : Option ℚ) : Bool :=
  match x with
  | none => false
  | some v => decide (v ≠ 0)

/-- Python division, `ZeroDivisionError` as `Except.error`. -/
def pyDiv (a b : ℚ) : Except Unit ℚ :=
  if b = 0 then .error () else .ok (a / b)

/-- `summary['successful_runs']/summary['total_runs']*100` of the
console summary (src/analyze_logs.py, line 206). -/
def successPct (s : VersionSummary) : Except Unit ℚ :=
  match pyDiv (s.successful_runs : ℚ) (s.total_runs : ℚ) with
  | .error e => .error e
  | .ok r => .ok (r * 100)

/-- What the console summary prints for one version (the duration
statistics are echoed from the summary; `avg_duration` of `0.0` or
`none` prints the `N/A` marker instead, again by truthiness). -/
structure SummaryEntry where
  version : String
  total_runs : Nat
  successful_runs : Nat
  success_pct : ℚ
  show_durations : Bool
  total_errors : Nat
  total_warnings : Nat
deriving DecidableEq

/-- The `for version, data in results.items():` summary loop of `main`
(src/analyze_logs.py, lines 200-216); an uncaught `ZeroDivisionError`
aborts the whole loop. -/
def summaryLoop : List (String × VersionSummary) → Except Unit (List SummaryEntry)
  | [] => .ok []
  | (v, s) :: rest =>
    match successPct s with
    | .error e => .error e
    | .ok p =>
      match summaryLoop rest with
      | .error e => .error e
      | .ok entries =>
        .ok ({ version := v, total_runs := s.total_runs,
               successful_runs := s.successful_runs, success_pct := p,
               show_durations := pyTruthy s.avg_duration,
               total_errors := s.total_errors,
               total_warnings := s.total_warnings } :: entries)

/-- The duration-comparison step of the comparative section
(src/analyze_logs.py, lines 229-233): the guard is Python truthiness of
the two optional averages; inside the guard the baseline average is
necessarily non-zero, so the percentage division cannot fault.  `some
(diff, pct)` is the printed `Duration change` line. -/
def durationComparison (b t : Option ℚ) : Option (ℚ × ℚ) :=
  if pyTruthy b && pyTruthy t then
    match b, t with
    | some bv, some tv => some (tv - bv, (tv - bv) / bv * 100)
    | _, _ => none
  else none

/-- One version's block of the comparative section (src/analyze_logs.py,
lines 226-245): optional duration-change line, error/warning deltas, and
the success-rate delta whose divisions fault when a `total_runs` is 0. -/
structure CompEntry where
  version : String
  duration_change : Option (ℚ × ℚ)
  error_change : ℤ
  warn_change : ℤ
  rate_change : ℚ
deriving DecidableEq

def compareVersion (name : String) (base t : VersionSummary) : Except Unit CompEntry :=
  match pyDiv (base.successful_runs : ℚ) (base.total_runs : ℚ),
        pyDiv (t.successful_runs : ℚ) (t.total_runs : ℚ) with
  | .ok br, .ok tr =>
    .ok { version := name,
          duration_change := durationComparison base.avg_duration t.avg_duration,
          error_change := (t.total_errors : ℤ) - (base.total_errors : ℤ),
          warn_change := (t.total_warnings : ℤ) - (base.total_warnings : ℤ),
          rate_change := tr * 100 - br * 100 }
  | _, _ => .error ()

def testVersions : List String :=
  ["v0.8.0-beta.2", "v0.8.0-beta.2-with-n0-infra", "v0.8.0-beta.2-n0-only-infra"]

def lookupVersion (results : List (String × VersionSummary)) (name : String) :
    Option VersionSummary :=
  match results.find? (fun p => p.1 == name) with
  | some p => some p.2
  | none => none

def compLoop (base : VersionSummary) (results : List (String × VersionSummary)) :
    List String → Except Unit (List CompEntry)
  | [] => .ok []
  | n :: rest =>
    match lookupVersion results n with
    | none => compLoop base results rest
    | some s =>
      match compareVersion n base s with
      | .error e => .error e
      | .ok entry =>
        match compLoop base results rest with
        | .error e => .error e
        | .ok es => .ok (entry :: es)

/-- The `if 'baseline' in results:` comparative section of `main`. -/
def comparativeReport (results : List (String × VersionSummary)) :
    Except Unit (List CompEntry) :=
  match lookupVersion results "baseline" with
  | none => .ok []
  | some base => compLoop base results testVersions

/-- The reporting part of `main` (summary section, then comparative
section); any uncaught exception terminates the run. -/
def mainReport (results : List (String × VersionSummary)) :
    Except Unit (List SummaryEntry × List CompEntry) :=
  match summaryLoop results with
  | .error e => .error e
  | .ok se =>
    match comparativeReport results with
    | .error e => .error e
    | .ok ce => .ok (se, ce)

/-- The success-rate cell of the markdown statistics table
(src/generate_report.py, line 42):
`f"{summary['successful_runs']}/{summary['total_runs']} (100%)"` — the
percentage text is a hard-coded literal. -/
def mdSuccessRate (s : VersionSummary) : String :=
  toString s.successful_runs ++ "/" ++ toString s.total_runs ++ " (100%)"

/-- Input of the C1 counterexample and witness. -/
def c1Line : List Char := "2024-13-01T00:00:00.000Z boom".data

/-- Inputs of the C2 counterexample: both averages present, baseline
average exactly 0. -/
def c2Base : VersionSummary :=
  { initSummary with total_runs := 1, successful_runs := 1, avg_duration := some 0 }

def c2Test : VersionSummary :=
  { initSummary with total_runs := 1, successful_runs := 1, avg_duration := some 5 }

/-- Input of the C6 witness: a results map with a zero-run version. -/
def c6Results : List (String × VersionSummary) := [("baseline", initSummary)]

/-- Input of the C8 witness: a line with three `ERROR` occurrences. -/
def c8Line : List Char := "ERROR while closing: inner ERROR ERROR".data

/-- Input of the C9 witness. -/
def c9Lines : List (List Char) :=
  ["waiting".data, "got \"joined\": true in reply".data, "later line".data]

/-- Input of the C10 witness: first line parses, middle does not, last
parses again. -/
def c10Lines : List (List Char) :=
  ["00:00:01.000 a".data, "no timestamp".data, "00:00:02.000 b".data]

def c10Result : LogAnalysis :=
  { file := "f", error_count := 0, warn_count := 0,
    first_timestamp := some ⟨1000000, false⟩,
    last_timestamp := some ⟨2000000, false⟩,
    duration_seconds := some (secondsBetween ⟨1000000, false⟩ ⟨2000000, false⟩),
    success := false, notable_issues := [] }

/-- Input of the C3 witness: two time-only timestamps ten seconds
apart. -/
def c3Lines : List (List Char) :=
  ["00:00:00.000 begin".data, "00:00:10.000 end".data]

def c3Result : LogAnalysis :=
  { file := "f", error_count := 0, warn_count := 0,
    first_timestamp := some ⟨0, false⟩,
    last_timestamp := some ⟨10000000, false⟩,
    duration_seconds := some (secondsBetween ⟨0, false⟩ ⟨10000000, false⟩),
    success := false, notable_issues := [] }

/-- A run whose CLI log contributed the given duration. -/
def mkRun (d : ℚ) : TestRunAnalysis :=
  { cli_analysis := some { initResults "r" with duration_seconds := some d },
    peer_analysis := none }

/-- Inputs of the C5 witness: durations 3, 1, 4, 2 and the pair 4, 6. -/
def c5Runs : List TestRunAnalysis := [mkRun 3, mkRun 1, mkRun 4, mkRun 2]

def c5RunsPair : List TestRunAnalysis := [mkRun 4, mkRun 6]

theorem boolEqOfIff {a b : Bool} (h : a = true ↔ b = true) : a = b := by
  cases a <;> cases b <;> simp_all

theorem isPfx_iff (n : List Char) : ∀ h : List Char, isPfx n h = true ↔ ∃ t, h = n ++ t := by
  induction n with
  | nil => intro h; simp [isPfx]
  | cons a as ih =>
    intro h
    cases h with
    | nil => simp [isPfx]
    | cons b bs =>
      simp only [isPfx, Bool.and_eq_true, beq_iff_eq, ih, List.cons_append, List.cons.injEq]
      constructor
      · rintro ⟨rfl, t, rfl⟩; exact ⟨t, rfl, rfl⟩
      · rintro ⟨t, rfl, rfl⟩; exact ⟨rfl, t, rfl⟩

theorem hasSub_iff (n : List Char) : ∀ h : List Char,
    hasSub n h = true ↔ ∃ s t, h = s ++ n ++ t := by
  intro h
  induction h with
  | nil =>
    simp only [hasSub, isPfx_iff]
    constructor
    · rintro ⟨t, ht⟩; exact ⟨[], t, ht⟩
    · rintro ⟨s, t, ht⟩
      rcases List.append_eq_nil.mp (List.append_eq_nil.mp ht.symm).1 with ⟨h1, h2⟩
      exact ⟨t, by simp [h2, (List.append_eq_nil.mp ht.symm).2, h1]⟩
  | cons c cs ih =>
    simp only [hasSub, Bool.or_eq_true, isPfx_iff, ih]
    constructor
    · rintro (⟨t, ht⟩ | ⟨s, t, ht⟩)
      · exact ⟨[], t, by simp [ht]⟩
      · exact ⟨c :: s, t, by simp [ht]⟩
    · rintro ⟨s, t, ht⟩
      cases s with
      | nil => exact Or.inl ⟨t, by simpa using ht⟩
      | cons x xs =>
        rcases List.cons.injEq .. ▸ ht with ⟨-, h2⟩
        exact Or.inr ⟨xs, t, by simpa using h2⟩

theorem hasSub_rev (n h : List Char) : hasSub n.reverse h.reverse = hasSub n h := by
  apply boolEqOfIff
  rw [hasSub_iff, hasSub_iff]
  constructor
  · rintro ⟨s, t, ht⟩
    refine ⟨t.reverse, s.reverse, ?_⟩
    have := congrArg List.reverse ht
    simpa [List.reverse_append, List.append_assoc] using this
  · rintro ⟨s, t, ht⟩
    refine ⟨t.reverse, s.reverse, ?_⟩
    simp [ht, List.reverse_append, List.append_assoc]

theorem hasSub_nilHay {n : List Char} (hne : n ≠ []) : hasSub n [] = false := by
  cases n with
  | nil => exact absurd rfl hne
  | cons a as => rfl

theorem hasSub_dropWhile_mono (p : Char → Bool) (n : List Char) :
    ∀ l : List Char, hasSub n (l.dropWhile p) = true → hasSub n l = true := by
  intro l
  induction l with
  | nil => simp [List.dropWhile]
  | cons c cs ih =>
    rw [List.dropWhile_cons]
    by_cases hp : p c = true
    · intro h
      rw [if_pos hp] at h
      have := ih h
      simp [hasSub, this]
    · rw [if_neg hp]
      exact id

theorem hasSub_dropWhile_of_head (p : Char → Bool) (a : Char) (as : List Char)
    (ha : p a = false) :
    ∀ l : List Char, hasSub (a :: as) l = true → hasSub (a :: as) (l.dropWhile p) = true := by
  intro l
  induction l with
  | nil => intro h; exact absurd h (by simp [hasSub, isPfx])
  | cons c cs ih =>
    rw [List.dropWhile_cons]
    by_cases hp : p c = true
    · rw [if_pos hp]
      intro h
      rcases Bool.or_eq_true _ _ |>.mp h with hpre | hsub
      · exfalso
        have hac : a = c ∧ isPfx as cs = true := by simpa [isPfx] using hpre
        rw [hac.1, hp] at ha
        simp at ha
      · exact ih hsub
    · rw [if_neg hp]
      exact id

theorem hasSub_rev_flip (n h : List Char) : hasSub n h.reverse = hasSub n.reverse h := by
  conv_lhs => rw [← List.reverse_reverse n]
  exact hasSub_rev n.reverse h

/-- Stripping whitespace from the ends of a line does not affect whether a
whitespace-free, non-empty needle occurs in it.  This is what lets the
per-line properties be stated about the raw line even though the scanner
works on the stripped line. -/
theorem hasSub_pyStrip (n l : List Char) (hne : n ≠ [])
    (hall : ∀ c ∈ n, isPySpace c = false) :
    hasSub n (pyStrip l) = hasSub n l := by
  apply boolEqOfIff
  constructor
  · intro h
    rw [pyStrip] at h
    rw [hasSub_rev_flip] at h
    have h1 : hasSub n.reverse (l.dropWhile isPySpace).reverse = true :=
      hasSub_dropWhile_mono _ _ _ h
    rw [hasSub_rev] at h1
    exact hasSub_dropWhile_mono _ _ _ h1
  · intro h
    obtain ⟨a, as, rfl⟩ : ∃ a as, n = a :: as := by
      cases n with
      | nil => exact absurd rfl hne
      | cons a as => exact ⟨a, as, rfl⟩
    have ha : isPySpace a = false := hall a (List.mem_cons_self a as)
    have step1 : hasSub (a :: as) (l.dropWhile isPySpace) = true :=
      hasSub_dropWhile_of_head _ a as ha l h
    have step2 : hasSub (a :: as).reverse (l.dropWhile isPySpace).reverse = true := by
      rw [hasSub_rev]; exact step1
    rcases hnr : (a :: as).reverse with _ | ⟨b, bs⟩
    · exact absurd hnr (by simp)
    · have hb : isPySpace b = false := by
        apply hall
        have : b ∈ (a :: as).reverse := by rw [hnr]; exact List.mem_cons_self b bs
        exact List.mem_reverse.mp this
      have step3 : hasSub (b :: bs) ((l.dropWhile isPySpace).reverse.dropWhile isPySpace) = true :=
        hasSub_dropWhile_of_head isPySpace b bs hb _ (hnr ▸ step2)
      rw [pyStrip, hasSub_rev_flip, hnr]
      exact step3

theorem pyStrip_ne_nil_of_hasSub {n l : List Char} (hne : n ≠ [])
    (hall : ∀ c ∈ n, isPySpace c = false) (h : hasSub n l = true) :
    pyStrip l ≠ [] := by
  intro hnil
  have := hasSub_pyStrip n l hne hall
  rw [hnil, hasSub_nilHay hne] at this
  rw [← this] at h
  simp at h

theorem sERROR_spec : sERROR ≠ [] ∧ ∀ c ∈ sERROR, isPySpace c = false := by decide

theorem sJOINED_spec : sJOINED ≠ [] ∧ ∀ c ∈ sJOINED, isPySpace c = false := by decide

theorem processLine_error_count (today : Nat) (st : LogAnalysis) (raw : List Char) :
    (processLine today st raw).error_count =
      if hasSub sERROR raw then st.error_count + 1 else st.error_count := by
  by_cases hn : pyStrip raw = []
  · simp only [processLine, hn, if_pos]
    have : hasSub sERROR raw = false := by
      rw [← hasSub_pyStrip sERROR raw sERROR_spec.1 sERROR_spec.2, hn,
        hasSub_nilHay sERROR_spec.1]
    simp [this]
  · simp only [processLine]
    rw [if_neg hn]
    simp only [hasSub_pyStrip sERROR raw sERROR_spec.1 sERROR_spec.2]

theorem processLine_success (today : Nat) (st : LogAnalysis) (raw : List Char) :
    (processLine today st raw).success = (st.success || hasSub sJOINED raw) := by
  by_cases hn : pyStrip raw = []
  · simp only [processLine, hn, if_pos]
    have : hasSub sJOINED raw = false := by
      rw [← hasSub_pyStrip sJOINED raw sJOINED_spec.1 sJOINED_spec.2, hn,
        hasSub_nilHay sJOINED_spec.1]
    simp [this]
  · simp only [processLine]
    rw [if_neg hn]
    simp only [hasSub_pyStrip sJOINED raw sJOINED_spec.1 sJOINED_spec.2]
    cases hs : hasSub sJOINED raw <;> simp

theorem processLine_first (today : Nat) (st : LogAnalysis) (raw : List Char) :
    (processLine today st raw).first_timestamp =
      st.first_timestamp.or (lineTimestamp today raw) := by
  by_cases hn : pyStrip raw = []
  · simp [processLine, lineTimestamp, hn, Option.or_none]
  · simp only [processLine, lineTimestamp]
    rw [if_neg hn, if_neg hn]
    cases hp : parse_timestamp today (pyStrip raw) <;>
      cases hf : st.first_timestamp <;> simp [Option.or]

theorem processLine_last (today : Nat) (st : LogAnalysis) (raw : List Char) :
    (processLine today st raw).last_timestamp =
      (lineTimestamp today raw).or st.last_timestamp := by
  by_cases hn : pyStrip raw = []
  · simp [processLine, lineTimestamp, hn, Option.none_or]
  · simp only [processLine, lineTimestamp]
    rw [if_neg hn, if_neg hn]
    cases hp : parse_timestamp today (pyStrip raw) <;> simp [Option.or]

theorem processLine_duration (today : Nat) (st : LogAnalysis) (raw : List Char) :
    (processLine today st raw).duration_seconds = st.duration_seconds := by
  by_cases hn : pyStrip raw = []
  · simp [processLine, hn]
  · simp only [processLine]
    rw [if_neg hn]

theorem scan_success (today : Nat) : ∀ (lines : List (List Char)) (st : LogAnalysis),
    (lines.foldl (processLine today) st).success =
      (st.success || lines.any (fun raw => hasSub sJOINED raw)) := by
  intro lines
  induction lines with
  | nil => intro st; simp
  | cons raw rest ih =>
    intro st
    rw [List.foldl_cons, ih, processLine_success]
    simp [Bool.or_assoc]

theorem scan_duration (today : Nat) : ∀ (lines : List (List Char)) (st : LogAnalysis),
    (lines.foldl (processLine today) st).duration_seconds = st.duration_seconds := by
  intro lines
  induction lines with
  | nil => intro st; simp
  | cons raw rest ih =>
    intro st
    rw [List.foldl_cons, ih, processLine_duration]

theorem optGetLast_cons {α : Type} (t : α) (l : List α) :
    (t :: l).getLast? = l.getLast?.or (some t) := by
  induction l generalizing t with
  | nil => simp
  | cons c cs ih =>
    rw [List.getLast?_cons_cons, ih c]
    cases h : cs.getLast? <;> simp [Option.or]

theorem scan_first_last (today : Nat) : ∀ (lines : List (List Char)) (st : LogAnalysis),
    ((lines.foldl (processLine today) st).first_timestamp
        = st.first_timestamp.or (parsedTimestamps today lines).head?) ∧
    ((lines.foldl (processLine today) st).last_timestamp
        = (parsedTimestamps today lines).getLast?.or st.last_timestamp) := by
  intro lines
  induction lines with
  | nil => intro st; simp [parsedTimestamps, Option.or_none]
  | cons raw rest ih =>
    intro st
    rw [List.foldl_cons]
    constructor
    · rw [(ih (processLine today st raw)).1, processLine_first, Option.or_assoc]
      congr 1
      simp only [parsedTimestamps, List.filterMap_cons]
      cases ht : lineTimestamp today raw <;> simp [Option.or]
    · rw [(ih (processLine today st raw)).2, processLine_last]
      simp only [parsedTimestamps, List.filterMap_cons]
      cases ht : lineTimestamp today raw
      · simp [Option.or]
      · rw [optGetLast_cons, Option.or_assoc]

/-- C1 (counterexample): on the line `2024-13-01T00:00:00.000Z boom` the
first pattern tier's regex matches `2024-13-01T00:00:00.000Z`, parsing of
that matched substring fails (month 13), and yet `parse_timestamp`
returns a timestamp — produced by the third (time-only) tier, which
matched `00:00:00.000` inside the same text.  So a later tier IS tried
after an earlier tier matched but failed to parse, contrary to the
claim. -/
theorem c1_counterexample :
    searchPat matchISO c1Line = some "2024-13-01T00:00:00.000Z".data ∧
    parseMatched 0 "2024-13-01T00:00:00.000Z".data = none ∧
    parse_timestamp 0 c1Line = some ⟨0, false⟩ := by decide

/-- C1 (amended): when an earlier pattern tier's regex matches a
substring of the line but parsing of that matched substring fails, no
timestamp is returned for that tier and the scan falls through to the
NEXT tier (the `except ValueError: continue` advances the pattern loop);
a later tier is attempted whenever every earlier tier either did not
match at all or matched but failed to parse. -/
theorem c1_parse_failure_falls_through (today : Nat) (line s : List Char)
    (hmatch : searchPat matchISO line = some s)
    (hfail : parseMatched today s = none) :
    parse_timestamp today line = patLoop today line [matchStd, matchTimeOnly] := by
  simp only [parse_timestamp, tsPatterns, patLoop, hmatch, hfail]

theorem c1_witness :
    parse_timestamp 0 c1Line = patLoop 0 c1Line [matchStd, matchTimeOnly] :=
  c1_parse_failure_falls_through 0 c1Line "2024-13-01T00:00:00.000Z".data
    (by decide) (by decide)

/-- C2 (counterexample): both averages are present but the baseline
average is exactly `0`, which is falsy in
`if baseline['avg_duration'] and test_summary['avg_duration']:` — so the
duration delta and percentage are NOT printed, and no division fault is
raised (the comparison completes with `Except.ok`). -/
theorem c2_counterexample :
    c2Base.avg_duration = some 0 ∧ c2Test.avg_duration = some 5 ∧
    durationComparison c2Base.avg_duration c2Test.avg_duration = none ∧
    (compareVersion "v0.8.0-beta.2" c2Base c2Test).map (fun e => e.duration_change)
      = Except.ok none :=
  ⟨rfl, rfl, rfl, rfl⟩

/-- C2 (amended): the duration delta and percentage change are computed
exactly when both `avg_duration`s are present AND non-zero (the guard is
Python truthiness, not presence); in the truthy case the printed values
are `t - b` and `(t - b)/b*100`; a present baseline average of exactly 0
makes the guard falsy, so the comparison is silently skipped — no
division fault can be raised by this step, and the per-version
comparison block still completes. -/
theorem c2_truthiness_guard :
    (∀ b t : Option ℚ,
      (durationComparison b t).isSome = (pyTruthy b && pyTruthy t)) ∧
    (∀ bv tv : ℚ, bv ≠ 0 → tv ≠ 0 →
      durationComparison (some bv) (some tv)
        = some (tv - bv, (tv - bv) / bv * 100)) ∧
    (∀ tv : ℚ, durationComparison (some 0) (some tv) = none) ∧
    (∀ (name : String) (base test : VersionSummary),
      base.total_runs ≠ 0 → test.total_runs ≠ 0 →
      ∃ entry, compareVersion name base test = Except.ok entry ∧
        entry.duration_change
          = durationComparison base.avg_duration test.avg_duration) := by
  refine ⟨?_, ?_, ?_, ?_⟩
  · intro b t
    cases b with
    | none => simp [durationComparison, pyTruthy]
    | some bv =>
      cases t with
      | none => simp [durationComparison, pyTruthy]
      | some tv =>
        by_cases hb : bv = 0 <;> by_cases ht : tv = 0 <;>
          simp [durationComparison, pyTruthy, hb, ht]
  · intro bv tv hb ht
    simp [durationComparison, pyTruthy, hb, ht]
  · intro tv
    simp [durationComparison, pyTruthy]
  · intro name base test hb ht
    have hb' : (base.total_runs : ℚ) ≠ 0 := Nat.cast_ne_zero.mpr hb
    have ht' : (test.total_runs : ℚ) ≠ 0 := Nat.cast_ne_zero.mpr ht
    refine ⟨{ version := name,
              duration_change := durationComparison base.avg_duration test.avg_duration,
              error_change := (test.total_errors : ℤ) - (base.total_errors : ℤ),
              warn_change := (test.total_warnings : ℤ) - (base.total_warnings : ℤ),
              rate_change := (test.successful_runs : ℚ) / (test.total_runs : ℚ) * 100
                - (base.successful_runs : ℚ) / (base.total_runs : ℚ) * 100 }, ?_, rfl⟩
    simp [compareVersion, pyDiv, hb', ht']

theorem c2_witness :
    durationComparison (some 2) (some 3) = some (3 - 2, (3 - 2) / 2 * 100) ∧
    durationComparison (some 0) (some 5) = none :=
  ⟨c2_truthiness_guard.2.1 2 3 (by norm_num) (by norm_num),
   c2_truthiness_guard.2.2.1 5⟩

/-- C4: the markdown report's success-rate cell always ends in the
literal text ` (100%)`, for every summary whatever its actual rate; in
particular a summary of 3 successful runs out of 5 prints
`3/5 (100%)`. -/
theorem c4_success_rate_hardcoded :
    (∀ s : VersionSummary, ∃ p : String, mdSuccessRate s = p ++ " (100%)") ∧
    mdSuccessRate { initSummary with successful_runs := 3, total_runs := 5 }
      = "3/5 (100%)" := by
  constructor
  · intro s
    exact ⟨toString s.successful_runs ++ "/" ++ toString s.total_runs, rfl⟩
  · decide

/-- C6: the console summary's success-percentage computation divides by
`total_runs`; for any results list containing a version whose
`total_runs` is 0, the summary loop raises an uncaught
`ZeroDivisionError` (`Except.error`), and so does the whole reporting
phase of `main` — the run terminates. -/
theorem c6_total_runs_zero_fault (results : List (String × VersionSummary))
    (v : String) (s : VersionSummary) (hmem : (v, s) ∈ results)
    (h0 : s.total_runs = 0) :
    summaryLoop results = .error () ∧ mainReport results = .error () := by
  have hsum : summaryLoop results = .error () := by
    induction results with
    | nil => cases hmem
    | cons p rest ih =>
      obtain ⟨v', s'⟩ := p
      rcases List.mem_cons.mp hmem with heq | hmem'
      · obtain ⟨-, rfl⟩ : v = v' ∧ s = s' := by
          constructor <;> [exact congrArg Prod.fst heq; exact congrArg Prod.snd heq]
        have : successPct s = .error () := by
          simp [successPct, pyDiv, h0]
        simp [summaryLoop, this]
      · have hrest := ih hmem'
        cases hp : successPct s' with
        | error e => cases e; simp [summaryLoop, hp]
        | ok p' => simp [summaryLoop, hp, hrest]
  refine ⟨hsum, ?_⟩
  simp [mainReport, hsum]

theorem c6_witness :
    summaryLoop c6Results = .error () ∧ mainReport c6Results = .error () :=
  c6_total_runs_zero_fault c6Results "baseline" initSummary
    (by simp [c6Results]) rfl

/-- C7: when the file read fails with any message, `analyze_log_file`
returns (it does not raise) a `LogAnalysis` whose `notable_issues`
records the failure and whose every other field keeps its zero/empty
default. -/
theorem c7_read_failure_defaults (path : String) (today : Nat) (e : String) :
    analyze_log_file path today (.error e) =
      .ok { file := path, error_count := 0, warn_count := 0, first_timestamp := none,
            last_timestamp := none, duration_seconds := none, success := false,
            notable_issues := ["Failed to read file: " ++ e] } := rfl

/-- C8: for every log line containing the literal substring `ERROR`
(exact casing), one loop iteration increases `error_count` by exactly
one, however many times `ERROR` occurs within the line — the check is
`if 'ERROR' in line:`, a per-line membership test, not an occurrence
count. -/
theorem c8_error_count_per_line (today : Nat) (st : LogAnalysis) (raw : List Char)
    (h : hasSub sERROR raw = true) :
    (processLine today st raw).error_count = st.error_count + 1 := by
  rw [processLine_error_count, h, if_pos rfl]

theorem c8_witness :
    hasSub sERROR c8Line = true ∧
    (processLine 0 (initResults "f") c8Line).error_count
      = (initResults "f").error_count + 1 ∧
    (processLine 0 (initResults "f") c8Line).error_count = 1 :=
  ⟨by decide, c8_error_count_per_line 0 (initResults "f") c8Line (by decide), by decide⟩

/-- C9: after scanning a file's lines, `success` is true exactly when
some line contains the case-sensitive substring `"joined"` (quotes
included); and once a state's `success` is true, processing any further
line keeps it true (the flag is only ever set, never reset). -/
theorem c9_success_flag :
    (∀ (today : Nat) (path : String) (lines : List (List Char)),
      (scanLines today path lines).success
        = lines.any (fun raw => hasSub sJOINED raw)) ∧
    (∀ (today : Nat) (st : LogAnalysis) (raw : List Char),
      st.success = true → (processLine today st raw).success = true) := by
  constructor
  · intro today path lines
    rw [scanLines, scan_success]
    simp [initResults]
  · intro today st raw h
    rw [processLine_success, h]
    simp

theorem c9_witness :
    (scanLines 0 "f" c9Lines).success
      = c9Lines.any (fun raw => hasSub sJOINED raw) ∧
    (scanLines 0 "f" c9Lines).success = true ∧
    (scanLines 0 "f" ["no marker".data]).success = false ∧
    (processLine 0 { initResults "f" with success := true } "later".data).success
      = true :=
  ⟨c9_success_flag.1 0 "f" c9Lines, by decide, by decide,
   c9_success_flag.2 0 { initResults "f" with success := true } "later".data rfl⟩

/-- C10: for every `LogAnalysis` produced from a readable file,
`first_timestamp` is the first extracted timestamp and `last_timestamp`
the last one (so each is present exactly when the other is, both
becoming set at the first line that parses); a state whose
`first_timestamp` is already set never changes it, while any later
successful parse overwrites `last_timestamp`. -/
theorem c10_first_last_timestamps (path : String) (today : Nat)
    (lines : List (List Char)) (r : LogAnalysis)
    (h : analyze_log_file path today (.ok lines) = .ok r) :
    r.first_timestamp = (parsedTimestamps today lines).head? ∧
    r.last_timestamp = (parsedTimestamps today lines).getLast? ∧
    (r.first_timestamp = none ↔ r.last_timestamp = none) ∧
    (∀ (st : LogAnalysis) (raw : List Char), st.first_timestamp ≠ none →
      (processLine today st raw).first_timestamp = st.first_timestamp) ∧
    (∀ (st : LogAnalysis) (raw : List Char) (t : Timestamp),
      lineTimestamp today raw = some t →
      (processLine today st raw).last_timestamp = some t) := by
  have key : r.first_timestamp = (scanLines today path lines).first_timestamp ∧
      r.last_timestamp = (scanLines today path lines).last_timestamp := by
    simp only [analyze_log_file] at h
    split at h
    · rename_i f l hf hl
      split at h
      · obtain rfl : _ = r := Except.ok.inj h
        simp [hf, hl]
      · cases h
    · obtain rfl : _ = r := Except.ok.inj h
      exact ⟨rfl, rfl⟩
  have hscan := scan_first_last today lines (initResults path)
  have hfirst : r.first_timestamp = (parsedTimestamps today lines).head? := by
    rw [key.1]
    simp only [scanLines]
    rw [hscan.1]
    simp [initResults, Option.none_or]
  have hlast : r.last_timestamp = (parsedTimestamps today lines).getLast? := by
    rw [key.2]
    simp only [scanLines]
    rw [hscan.2]
    simp [initResults, Option.or_none]
  refine ⟨hfirst, hlast, ?_, ?_, ?_⟩
  · rw [hfirst, hlast]
    rw [List.head?_eq_none_iff, List.getLast?_eq_none_iff]
  · intro st raw hne
    rw [processLine_first]
    cases hf : st.first_timestamp with
    | none => exact absurd hf hne
    | some f => rfl
  · intro st raw t ht
    rw [processLine_last, ht]
    rfl

theorem c10_witness :
    analyze_log_file "f" 0 (.ok c10Lines) = .ok c10Result ∧
    c10Result.first_timestamp = (parsedTimestamps 0 c10Lines).head? ∧
    c10Result.last_timestamp = (parsedTimestamps 0 c10Lines).getLast? := by
  have h : analyze_log_file "f" 0 (.ok c10Lines) = .ok c10Result := rfl
  have k := c10_first_last_timestamps "f" 0 c10Lines c10Result h
  exact ⟨h, k.1, k.2.1⟩

/-- C3: for every `LogAnalysis` a scan produces, `duration_seconds` is
present exactly when both timestamps are present, and then equals
`(last - first).total_seconds()` — the exact microsecond difference in
seconds. -/
theorem c3_duration_invariant (path : String) (today : Nat)
    (read : Except String (List (List Char))) (r : LogAnalysis)
    (h : analyze_log_file path today read = .ok r) :
    (r.duration_seconds.isSome = true ↔
      (r.first_timestamp.isSome = true ∧ r.last_timestamp.isSome = true)) ∧
    (∀ f l, r.first_timestamp = some f → r.last_timestamp = some l →
      r.duration_seconds = some (secondsBetween f l)) := by
  cases read with
  | error e =>
    obtain rfl : _ = r := Except.ok.inj h
    constructor
    · simp [initResults]
    · intro f l hf
      simp [initResults] at hf
  | ok lines =>
    have hdur : (scanLines today path lines).duration_seconds = none := by
      rw [scanLines, scan_duration]
      rfl
    simp only [analyze_log_file] at h
    split at h
    · rename_i f0 l0 hf hl
      split at h
      · obtain rfl : _ = r := Except.ok.inj h
        constructor
        · simp [hf, hl]
        · intro f l hf' hl'
          simp only [LogAnalysis.first_timestamp, hf] at hf'
          simp only [LogAnalysis.last_timestamp, hl] at hl'
          obtain rfl : f0 = f := Option.some.inj hf'
          obtain rfl : l0 = l := Option.some.inj hl'
          rfl
      · cases h
    · rename_i hnot
      obtain rfl : _ = r := Except.ok.inj h
      constructor
      · constructor
        · intro hd
          rw [hdur] at hd
          cases hd
        · rintro ⟨hf', hl'⟩
          obtain ⟨f0, hf0⟩ := Option.isSome_iff_exists.mp hf'
          obtain ⟨l0, hl0⟩ := Option.isSome_iff_exists.mp hl'
          exact (hnot f0 l0 hf0 hl0).elim
      · intro f l hf' hl'
        exact (hnot f l hf' hl').elim

theorem c3_witness :
    analyze_log_file "f" 0 (.ok c3Lines) = .ok c3Result ∧
    c3Result.duration_seconds = some (secondsBetween ⟨0, false⟩ ⟨10000000, false⟩) ∧
    secondsBetween ⟨0, false⟩ ⟨10000000, false⟩ = 10 := by
  have h : analyze_log_file "f" 0 (.ok c3Lines) = .ok c3Result := rfl
  refine ⟨h, ?_, by norm_num [secondsBetween]⟩
  exact (c3_duration_invariant "f" 0 _ c3Result h).2 ⟨0, false⟩ ⟨10000000, false⟩ rfl rfl

/-- C5: for every non-empty duration list collected over a version's
runs, the reported median is the element at index `⌊count/2⌋` of the
fully sorted list — sorted meaning ascending (`List.Sorted`) and a
permutation of the collected durations — i.e. the upper median for even
counts, not an average of the two middle elements. -/
theorem c5_median_upper (runs : List TestRunAnalysis)
    (h : durationsOf runs ≠ []) :
    List.Sorted (· ≤ ·) (pySorted (durationsOf runs)) ∧
    (pySorted (durationsOf runs)).Perm (durationsOf runs) ∧
    (analyze_version_directory runs).median_duration
      = (pySorted (durationsOf runs))[(durationsOf runs).length / 2]? ∧
    (analyze_version_directory runs).median_duration.isSome = true := by
  have hsorted : List.Sorted (· ≤ ·) (pySorted (durationsOf runs)) :=
    List.sorted_insertionSort _ _
  have hperm : (pySorted (durationsOf runs)).Perm (durationsOf runs) :=
    List.perm_insertionSort _ _
  have hmed : (analyze_version_directory runs).median_duration
      = (pySorted (durationsOf runs))[(durationsOf runs).length / 2]? := by
    simp only [analyze_version_directory, durationsOf] at *
    rw [if_neg h]
  refine ⟨hsorted, hperm, hmed, ?_⟩
  rw [hmed]
  have hlen : (pySorted (durationsOf runs)).length = (durationsOf runs).length :=
    hperm.length_eq
  have hpos : 0 < (durationsOf runs).length := List.length_pos.mpr h
  have hidx : (durationsOf runs).length / 2 < (pySorted (durationsOf runs)).length := by
    rw [hlen]
    exact Nat.div_lt_self hpos (by norm_num)
  simp [List.getElem?_eq_getElem hidx]

theorem c5_witness :
    durationsOf c5Runs ≠ [] ∧
    (analyze_version_directory c5Runs).median_duration
      = (pySorted (durationsOf c5Runs))[(durationsOf c5Runs).length / 2]? ∧
    (analyze_version_directory c5Runs).median_duration = some 3 ∧
    (analyze_version_directory c5RunsPair).median_duration = some 6 :=
  ⟨by decide, (c5_median_upper c5Runs (by decide)).2.2.1, by decide, by decide⟩
